import Mathlib

/-!
Verification development for the COMBINE-archive helper module
`tellurium/utils/omex.py`.

The module is orchestration glue over the native `libcombine` library.
We embed it shallowly:

* the filesystem is an explicit state (`FS`): an association list from
  absolute path to `FileData` plus a list of existing directories;
* a written COMBINE archive is a `FileData.omexArchive` holding the list
  of archive entries (`AEntry`) in insertion order — the native library is
  modelled, per the specification, as a faithful opaque store
  (`addFile` appends, `writeToFile` persists, `initializeFromArchive`
  reads back); any other file content is an invalid archive;
* the native format oracles (`lookupFormat`, `guessFormat`, `isFormat`)
  and the per-entry metadata serialiser (`toXML`) are parameters, since
  their behaviour lives outside the repository;
* Python exceptions become `Except Err`; `IOError`, `ValueError` and
  `zipfile.BadZipFile` are distinguished (in Python `BadZipFile` is not
  an `OSError`);
* every wrapper additionally returns the list of native-handle events it
  performed: `CombineArchive()` construction is `Ev.acquire`, `cleanUp()`
  is `Ev.release`.  Printing to stdout has no modelled effect.

Paths are taken as already absolute (`os.path.abspath` is the identity in
the model) and `os.path.join` is string concatenation with a slash.
-/

namespace Tellurium

/-- One entry of a written COMBINE archive as stored by the native
library: location, format URI, master flag, and the bytes of the file
that `addFile` read from disk. -/
structure AEntry where
  location : String
  format : String
  master : Bool
  content : String
deriving Repr, DecidableEq

/-- Content of a file on disk: plain text, or a written COMBINE archive
(the native library's serialised form, modelled as the entry list). -/
inductive FileData where
  | text (s : String)
  | omexArchive (entriesList : List AEntry)
deriving Repr, DecidableEq

/-- Association-list lookup for the file table (first match wins). -/
def lookupFD : List (String × FileData) → String → Option FileData
  | [], _ => none
  | q :: rest, p => if q.1 == p then some q.2 else lookupFD rest p

/-- Replace every binding of path `p` (mirrors overwriting an existing
file). -/
def replaceFD : List (String × FileData) → String → FileData → List (String × FileData)
  | [], _, _ => []
  | q :: rest, p, d => if q.1 == p then (p, d) :: replaceFD rest p d else q :: replaceFD rest p d

/-- Filesystem state: files (path, content) in creation order, and the
set of existing directories. -/
structure FS where
  files : List (String × FileData)
  dirs : List String
deriving Repr, DecidableEq

def FS.getFile (fs : FS) (p : String) : Option FileData := lookupFD fs.files p

def FS.isFile (fs : FS) (p : String) : Bool := (fs.getFile p).isSome

def FS.isDir (fs : FS) (p : String) : Bool := fs.dirs.contains p

/-- Model of `os.path.exists`. -/
def FS.pathExists (fs : FS) (p : String) : Bool := fs.isFile p || fs.isDir p

/-- Model of writing a file: overwrite in place, or append a fresh
binding. -/
def FS.writeFile (fs : FS) (p : String) (d : FileData) : FS :=
  if fs.isFile p then { fs with files := replaceFD fs.files p d }
  else { fs with files := fs.files ++ [(p, d)] }

/-- Model of `os.remove`. -/
def FS.removeFile (fs : FS) (p : String) : FS :=
  { fs with files := fs.files.filter (fun q => q.1 != p) }

/-- Bytes of the file at `p` (what a format-guessing call would read);
empty for a missing file or an opaque archive. -/
def FS.contentAt (fs : FS) (p : String) : String :=
  match fs.getFile p with
  | some (.text s) => s
  | _ => ""

/-- Character-level test that the first list starts with the second
(structural, so that it evaluates by reduction). -/
def charsStartWith : List Char → List Char → Bool
  | _, [] => true
  | [], _ :: _ => false
  | a :: as, b :: bs => a == b && charsStartWith as bs

/-- Model of `os.walk` + `os.path.relpath`: the locations (relative
paths) of all files strictly under directory `d`, in file-table order. -/
def FS.filesUnder (fs : FS) (d : String) : List String :=
  fs.files.filterMap (fun q =>
    if charsStartWith q.1.data (d ++ "/").data then
      some (String.mk (q.1.data.drop (d ++ "/").data.length))
    else none)

/-- Model of `shutil.rmtree`. -/
def FS.rmtree (fs : FS) (d : String) : FS :=
  { files := fs.files.filter (fun q => !charsStartWith q.1.data (d ++ "/").data),
    dirs := fs.dirs.filter (fun x => x != d) }

/-- Model of `os.path.join` for the relative locations used by the
module. -/
def pjoin (d f : String) : String := d ++ "/" ++ f

/-- Python exceptions raised by the module: `IOError`/`OSError`,
`ValueError`, and `zipfile.BadZipFile` (which is not an `OSError`). -/
inductive Err where
  | ioError (msg : String)
  | valueError (msg : String)
  | badZipFile
deriving Repr, DecidableEq

/-- Native archive-handle events: `libcombine.CombineArchive()` is
`acquire`, `.cleanUp()` is `release`. -/
inductive Ev where
  | acquire
  | release
deriving Repr, DecidableEq

/-- The native format oracles of `libcombine.KnownFormats`.
`guessFormat` takes the bytes of the file it inspects. -/
structure KnownFormats where
  lookupFormat : String → String
  guessFormat : String → String
  isFormat : String → String → Bool

/-- Creator contact metadata (`Creator` class). -/
structure Creator where
  givenName : String
  familyName : String
  organization : String
  email : String
deriving Repr, DecidableEq

/-- The `Entry` helper class after successful construction.  `format` is
always a string (possibly empty) since the constructor fills it from
`lookupFormat` when only a key was given. -/
structure Entry where
  location : String
  format : String
  master : Bool
  description : Option String
  creators : List Creator
deriving Repr, DecidableEq

/-- Model of `Entry.__init__`: raises `ValueError` when neither
`formatKey` nor `format` is given; when `format` is missing it is looked
up from `formatKey`; when both are given `format` wins. -/
def Entry.init (kf : KnownFormats) (location : String) (format : Option String)
    (formatKey : Option String) (master : Bool) (description : Option String)
    (creators : List Creator) : Except Err Entry :=
  match formatKey, format with
  | none, none =>
      .error (.valueError "Either formatKey or format must be specified for Entry.")
  | _, some f => .ok { location, format := f, master, description, creators }
  | some k, none =>
      .ok { location, format := kf.lookupFormat k, master, description, creators }

def MANIFEST_PATTERN : String := "manifest.xml"

/-- Single-quote character, used inside the literal XML header strings of
the source. -/
def sq : String := (Char.ofNat 39).toString

/-- The fixed RDF header written by `_addEntriesToArchive` (its
`start_str`). -/
def xmlStart : String :=
  "<?xml version=" ++ sq ++ "1.0" ++ sq ++ " encoding=" ++ sq ++ "UTF-8" ++ sq ++ "?>\n"
    ++ "<rdf:RDF xmlns:rdf=" ++ sq ++ "http://www.w3.org/1999/02/22-rdf-syntax-ns#" ++ sq
    ++ " xmlns:dcterms=" ++ sq ++ "http://purl.org/dc/terms/" ++ sq
    ++ " xmlns:vCard=" ++ sq ++ "http://www.w3.org/2006/vcard/ns#" ++ sq ++ ">"

/-- The fixed RDF footer (`end_str`). -/
def xmlEnd : String := "</rdf:RDF>"

/-- The combined metadata document `metadata_str` of
`_addEntriesToArchive`: entries with an empty format are skipped, each
remaining entry's `OmexDescription.toXML()` output (the oracle `toXML`,
already split into lines) is stripped of its first two and last two lines
(`[2:-2]`), and everything is spliced between the fixed header and
footer. -/
def metadataStr (toXML : Entry → List String) (entries : List Entry) : String :=
  let metadata_xml := (entries.filter (fun e => e.format != "")).map toXML
  let contents := metadata_xml.map (fun lines => ((lines.drop 2).dropLast).dropLast)
  let content_str := String.intercalate "\n" (contents.map (String.intercalate "\n"))
  String.intercalate "\n" [xmlStart, content_str, xmlEnd]

/-- True when the file at `p` parses as a COMBINE archive, i.e. when
`initializeFromArchive` would succeed. -/
def isValidOmexAt (fs : FS) (p : String) : Bool :=
  match fs.getFile p with
  | some (.omexArchive _) => true
  | _ => false

/-- The entry-adding loop of `_addEntriesToArchive` (lines 249-264): for
each entry, if the source file is missing the strict flag decides between
raising `IOError` and a mere warning; `archive.addFile` is called in
either case and appends the entry (with the bytes read from disk) to the
archive under construction. -/
def addFilesLoop (fs : FS) (workingDir : String) (strict : Bool) :
    List Entry → List AEntry → Except Err (List AEntry)
  | [], acc => .ok acc
  | e :: rest, acc =>
    let path := pjoin workingDir e.location
    if !fs.pathExists path && strict then
      .error (.ioError ("File does not exist at given location: " ++ path))
    else
      addFilesLoop fs workingDir strict rest
        (acc ++ [{ location := e.location, format := e.format, master := e.master,
                   content := fs.contentAt path }])

/-- Model of `_addEntriesToArchive`.  Faithful points to note against the
source: the working-directory check comes first; in fresh mode
(`add_entries = false`) an existing target file is deleted; a first
`CombineArchive` handle is acquired and, in update mode, initialised from
the existing archive (raising `IOError` when that file is invalid) — but
this first handle is then shadowed by a second fresh `CombineArchive`
before any entry is added, so the loaded content is discarded and the
first handle is never released; `metadata.rdf` is written into the
working directory before the per-entry existence checks run; only the
second handle is released, after `writeToFile`. -/
def addEntriesToArchiveImpl (toXML : Entry → List String)
    (omexPath : String) (entries : List Entry) (workingDir : String)
    (add_entries : Bool) (strict : Bool) (fs : FS) :
    Except Err Unit × FS × List Ev :=
  if !fs.pathExists workingDir then
    (.error (.ioError ("Working directory does not exist: " ++ workingDir)), fs, [])
  else
    let fs1 := if !add_entries && fs.pathExists omexPath then fs.removeFile omexPath else fs
    if add_entries && fs1.pathExists omexPath && !isValidOmexAt fs1 omexPath then
      (.error (.ioError "Combine Archive is invalid: "), fs1, [.acquire])
    else
      let fs2 := fs1.writeFile (pjoin workingDir "metadata.rdf")
        (.text (metadataStr toXML entries))
      match addFilesLoop fs2 workingDir strict entries [] with
      | .error e => (.error e, fs2, [.acquire, .acquire])
      | .ok aentries =>
          (.ok (), fs2.writeFile omexPath (.omexArchive aentries), [.acquire, .acquire, .release])

/-- Model of `combineArchiveFromEntries` (fresh creation, strict). -/
def combineArchiveFromEntries (toXML : Entry → List String) (omexPath : String)
    (entries : List Entry) (workingDir : String) (fs : FS) :
    Except Err Unit × FS × List Ev :=
  addEntriesToArchiveImpl toXML omexPath entries workingDir false true fs

/-- Model of `addEntriesToCombineArchive` (update mode, strict). -/
def addEntriesToCombineArchive (toXML : Entry → List String) (omexPath : String)
    (entries : List Entry) (workingDir : String) (fs : FS) :
    Except Err Unit × FS × List Ev :=
  addEntriesToArchiveImpl toXML omexPath entries workingDir true true fs

/-- The entry list built by `combineArchiveFromDirectory` (lines 94-121):
the base `"."` entry with the OMEX specification format and
`master = False`, then one entry per scanned file — skipping a top-level
`manifest.xml` — whose format is guessed from the file and whose master
flag is set exactly when the guessed format matches the `"sed-ml"`
format key. -/
def directoryEntries (kf : KnownFormats) (directory : String) (creators : List Creator)
    (fs : FS) : List Entry :=
  { location := ".", format := "http://identifiers.org/combine.specifications/omex",
    master := false, description := none, creators := [] } ::
  (fs.filesUnder directory).filterMap (fun loc =>
    if loc == MANIFEST_PATTERN then none
    else
      let fmt := kf.guessFormat (fs.contentAt (pjoin directory loc))
      some { location := loc, format := fmt, master := kf.isFormat "sed-ml" fmt,
             description := none, creators := creators })

/-- Model of `combineArchiveFromDirectory`: build the scanned entry list
and write it via `combineArchiveFromEntries`, with the scanned directory
as working directory. -/
def combineArchiveFromDirectory (kf : KnownFormats) (toXML : Entry → List String)
    (directory omexPath : String) (creators : List Creator) (fs : FS) :
    Except Err Unit × FS × List Ev :=
  combineArchiveFromEntries toXML omexPath (directoryEntries kf directory creators fs)
    directory fs

/-- The members of the ZIP container of a written archive: the manifest
file plus one member per entry other than the directory entry `"."`. -/
def omexZipMembers (es : List AEntry) : List (String × String) :=
  ("manifest.xml", String.intercalate "\n" (es.map (fun e => e.location ++ " " ++ e.format))) ::
  es.filterMap (fun e => if e.location == "." then none else some (e.location, e.content))

/-- Model of `extractCombineArchive`. The `"zip"` method opens the file
with `zipfile` (no native handle): a missing file raises the usual
`IOError`, a non-ZIP file raises `BadZipFile`, and all ZIP members are
extracted.  The `"omex"` method acquires a native handle, raises
`IOError` when `initializeFromArchive` fails (without releasing the
handle), and otherwise extracts each manifest-listed entry and releases
the handle. -/
def extractCombineArchive (omexPath directory method : String) (fs : FS) :
    Except Err Unit × FS × List Ev :=
  if method != "zip" && method != "omex" then
    (.error (.valueError ("Method is not supported: " ++ method)), fs, [])
  else if method == "zip" then
    match fs.getFile omexPath with
    | none => (.error (.ioError ("No such file or directory: " ++ omexPath)), fs, [])
    | some (.text _) => (.error .badZipFile, fs, [])
    | some (.omexArchive es) =>
        let fs1 := (omexZipMembers es).foldl
          (fun acc m => acc.writeFile (pjoin directory m.1) (.text m.2)) fs
        (.ok (), fs1, [])
  else
    match fs.getFile omexPath with
    | some (.omexArchive es) =>
        let fs1 := es.foldl
          (fun acc e => acc.writeFile (pjoin directory e.location) (.text e.content)) fs
        (.ok (), fs1, [.acquire, .release])
    | _ => (.error (.ioError "Invalid Combine Archive"), fs, [.acquire])

/-- The accumulation loop of `getLocationsByFormat` with the `"omex"`
method: matching master entries go to the first list, matching non-master
entries to the second, in archive order. -/
def getLocationsLoop (kf : KnownFormats) (formatKey : String) :
    List AEntry → List String → List String → List String × List String
  | [], lm, l => (lm, l)
  | e :: rest, lm, l =>
    if kf.isFormat formatKey e.format then
      if e.master then getLocationsLoop kf formatKey rest (lm ++ [e.location]) l
      else getLocationsLoop kf formatKey rest lm (l ++ [e.location])
    else getLocationsLoop kf formatKey rest lm l

/-- Model of `getLocationsByFormat`.  An empty format key is falsy and
raises `ValueError`.  The `"omex"` method reads the manifest through a
native handle and returns master locations before non-master ones.  The
`"zip"` method extracts everything into a fresh temporary directory
(`tmpDir`, the model of `tempfile.mkdtemp()`), walks it guessing formats,
returns the matches in walk order (its master list stays empty), and
removes the temporary tree on all paths (the `finally`). -/
def getLocationsByFormat (kf : KnownFormats) (omexPath formatKey method tmpDir : String)
    (fs : FS) : Except Err (List String) × FS × List Ev :=
  if formatKey == "" then (.error (.valueError "Format must be specified."), fs, [])
  else if method != "zip" && method != "omex" then
    (.error (.valueError ("Method is not supported: " ++ method)), fs, [])
  else if method == "omex" then
    match fs.getFile omexPath with
    | some (.omexArchive es) =>
        let p := getLocationsLoop kf formatKey es [] []
        (.ok (p.1 ++ p.2), fs, [.acquire, .release])
    | _ => (.error (.ioError "Invalid Combine Archive"), fs, [.acquire])
  else
    match extractCombineArchive omexPath tmpDir "zip" fs with
    | (.error e, fs1, _) => (.error e, fs1.rmtree tmpDir, [])
    | (.ok _, fs1, _) =>
        let locs := (fs1.filesUnder tmpDir).filter
          (fun loc => kf.isFormat formatKey (kf.guessFormat (fs1.contentAt (pjoin tmpDir loc))))
        (.ok locs, fs1.rmtree tmpDir, [])

/-- One row of the `listContents` result:
`[i, location, format, master, info]`. -/
structure ContentRecord where
  index : Nat
  location : String
  format : String
  master : Bool
  info : Option String
deriving Repr, DecidableEq

/-- The `try`-protected content-preview loop of `listContents`: `info`
starts as `None`; for each of the four format keys that matches, the
entry is extracted to a string (oracle `ees`); an extraction failure is
caught, aborting the loop and keeping whatever `info` held before. -/
def tryInfo (kf : KnownFormats) (ees : String → Except Err String) (location fmt : String) :
    List String → Option String → Option String
  | [], info => info
  | k :: ks, info =>
    if kf.isFormat k fmt then
      match ees location with
      | .ok s => tryInfo kf ees location fmt ks (some s)
      | .error _ => info
    else tryInfo kf ees location fmt ks info

/-- The record list built by the `listContents` loop, with running
index `i`. -/
def contentRecords (kf : KnownFormats) (ees : String → Except Err String) :
    List AEntry → Nat → List ContentRecord
  | [], _ => []
  | e :: rest, i =>
      { index := i, location := e.location, format := e.format, master := e.master,
        info := tryInfo kf ees e.location e.format ["sed-ml", "sbml", "sbgn", "cellml"] none } ::
      contentRecords kf ees rest (i + 1)

/-- Model of `listContents`: only the `"omex"` method is supported; an
invalid archive raises `IOError` (leaving the handle unreleased); the
handle is released after the loop otherwise. -/
def listContents (kf : KnownFormats) (ees : String → Except Err String)
    (omexPath method : String) (fs : FS) :
    Except Err (List ContentRecord) × FS × List Ev :=
  if method != "omex" then
    (.error (.valueError ("Method is not supported: " ++ method)), fs, [])
  else
    match fs.getFile omexPath with
    | some (.omexArchive es) => (.ok (contentRecords kf ees es 0), fs, [.acquire, .release])
    | _ => (.error (.ioError "Invalid Combine Archive"), fs, [.acquire])

/-- Model of `printArchive`: on an invalid archive it prints a message
and returns `None` — no exception — leaving the handle unreleased; on a
valid archive it prints the report and releases the handle.  The printed
text itself is not modelled. -/
def printArchive (fileName : String) (fs : FS) : Except Err Unit × FS × List Ev :=
  match fs.getFile fileName with
  | some (.omexArchive _) => (.ok (), fs, [.acquire, .release])
  | _ => (.ok (), fs, [.acquire])

/-- The ordering property claimed for `getLocationsByFormat`: the result
is exactly the master-flagged matching locations in archive order,
followed by the non-master matching locations in archive order. -/
def mastersFirst (kf : KnownFormats) (key : String) (es : List AEntry)
    (locs : List String) : Prop :=
  locs = (es.filter (fun e => kf.isFormat key e.format && e.master)).map AEntry.location ++
         (es.filter (fun e => kf.isFormat key e.format && !e.master)).map AEntry.location

/-! Concrete instances used to evaluate the model on specific inputs. -/

/-- Oracle whose only known format is the SED-ML URI `"http://sed-ml"`,
guessed for files whose bytes are `"SEDC"`. -/
def c2KF : KnownFormats :=
  { lookupFormat := fun _ => "",
    guessFormat := fun c => if c == "SEDC" then "http://sed-ml" else "http://other",
    isFormat := fun k f => k == "sed-ml" && f == "http://sed-ml" }

/-- A directory `/d` holding a SED-ML file and a model file. -/
def c2FS : FS :=
  { files := [("/d/sim.sedml", .text "SEDC"), ("/d/model.xml", .text "MODC")],
    dirs := ["/d"] }

/-- A filesystem with a valid archive at `/a/ar.omex` holding one entry
`old.xml`, plus a working directory `/w` with the source files. -/
def c1FS : FS :=
  { files := [("/w/old.xml", .text "oldc"), ("/w/new.xml", .text "newc"),
              ("/a/ar.omex",
               .omexArchive [{ location := "old.xml", format := "fmtO", master := false,
                               content := "oldc" }])],
    dirs := ["/w", "/a"] }

/-- Trivial metadata serialiser used in concrete runs. -/
def c1toXML : Entry → List String := fun _ => []

/-- The entry added in the concrete update-mode run. -/
def c1NewEntry : Entry :=
  { location := "new.xml", format := "fmtN", master := false, description := none,
    creators := [] }

/-- Oracle used in the C3 round-trip instance. -/
def c3KF : KnownFormats :=
  { lookupFormat := fun _ => "", guessFormat := fun _ => "", isFormat := fun _ _ => false }

def c3toXML : Entry → List String := fun _ => []

def c3EES : String → Except Err String := fun _ => .ok "content"

/-- Working directory `/w` with the two source files of the C3 run. -/
def c3FS : FS :=
  { files := [("/w/m.xml", .text "MC"), ("/w/s.sedml", .text "SC")], dirs := ["/w"] }

def c3Entries : List Entry :=
  [{ location := "m.xml", format := "FM", master := false, description := none, creators := [] },
   { location := "s.sedml", format := "FS", master := true, description := none, creators := [] }]

/-- The filesystem produced by the concrete C3 build. -/
def c3FSAfter : FS :=
  (combineArchiveFromEntries c3toXML "/a/out.omex" c3Entries "/w" c3FS).2.1

/-- The handle trace of the concrete C3 build. -/
def c3EvAfter : List Ev :=
  (combineArchiveFromEntries c3toXML "/a/out.omex" c3Entries "/w" c3FS).2.2

/-- Oracle for the C4 instance: format URI `"F"` matches key `"K"`, and
`"F"` is guessed exactly for the bytes of the two archived files. -/
def c4KF : KnownFormats :=
  { lookupFormat := fun _ => "",
    guessFormat := fun c => if c == "CA" || c == "CB" then "F" else "X",
    isFormat := fun k f => k == "K" && f == "F" }

/-- Archive order puts the non-master matching entry before the master
one. -/
def c4Entries : List AEntry :=
  [{ location := "a.xml", format := "F", master := false, content := "CA" },
   { location := "b.xml", format := "F", master := true, content := "CB" }]

def c4FS : FS := { files := [("/a/ar.omex", .omexArchive c4Entries)], dirs := ["/a"] }

def c5KF : KnownFormats :=
  { lookupFormat := fun _ => "LK", guessFormat := fun _ => "", isFormat := fun _ _ => false }

/-- A file that is not a parseable archive. -/
def c6FS : FS := { files := [("/a/bad.omex", .text "not a zip")], dirs := ["/a"] }

def c6KF : KnownFormats :=
  { lookupFormat := fun _ => "", guessFormat := fun _ => "", isFormat := fun _ _ => false }

def c6EES : String → Except Err String := fun _ => .ok ""

/-- An empty filesystem: no working directory exists. -/
def c7FS : FS := { files := [], dirs := [] }

def c7KF : KnownFormats :=
  { lookupFormat := fun _ => "", guessFormat := fun _ => "", isFormat := fun _ _ => false }

def c7toXML : Entry → List String := fun _ => []

def c8KF : KnownFormats :=
  { lookupFormat := fun _ => "", guessFormat := fun _ => "", isFormat := fun _ _ => false }

def c8EES : String → Except Err String := fun _ => .ok ""

def c8toXML : Entry → List String := fun _ => []

/-- An invalid archive for the error-path trace. -/
def c8FS : FS := { files := [("/a/bad.omex", .text "junk")], dirs := [] }

/-- A valid archive for the success-path trace. -/
def c8VFS : FS :=
  { files := [("/a/ok.omex",
               .omexArchive [{ location := "x", format := "f", master := false, content := "c" }])],
    dirs := [] }

def c9KF : KnownFormats :=
  { lookupFormat := fun _ => "", guessFormat := fun _ => "",
    isFormat := fun k f => k == "sed-ml" && f == "SF" }

/-- Extraction oracle that always fails. -/
def c9EES : String → Except Err String := fun _ => .error (.ioError "extraction failed")

def c9FS : FS :=
  { files := [("/a/ar.omex",
               .omexArchive [{ location := "s.sedml", format := "SF", master := true,
                               content := "SC" }])],
    dirs := [] }

def c10toXML : Entry → List String := fun _ => []

/-- A pre-existing target archive and an existing working directory, but
the entry's source file `/w/gone.xml` is missing. -/
def c10FS : FS :=
  { files := [("/a/old.omex", .omexArchive [])], dirs := ["/w", "/a"] }

def c10Entry : Entry :=
  { location := "gone.xml", format := "fmtG", master := false, description := none,
    creators := [] }

/-! Helper lemmas about the filesystem model. -/

theorem lookupFD_replaceFD_self (l : List (String × FileData)) (p : String) (d : FileData)
    (h : (lookupFD l p).isSome = true) : lookupFD (replaceFD l p d) p = some d := by
  induction l with
  | nil => simp [lookupFD] at h
  | cons q rest ih =>
      by_cases hq : q.1 == p
      · simp [replaceFD, hq, lookupFD]
      · simp [replaceFD, hq, lookupFD] at h ⊢
        exact ih h

theorem lookupFD_replaceFD_ne (l : List (String × FileData)) (p q : String) (d : FileData)
    (h : q ≠ p) : lookupFD (replaceFD l p d) q = lookupFD l q := by
  induction l with
  | nil => simp [replaceFD]
  | cons x rest ih =>
      by_cases hx : x.1 == p
      · have hx' : x.1 = p := by simpa using hx
        have hqp : ¬(p = q) := fun hc => h hc.symm
        have hxqp : ¬(x.1 = q) := by rw [hx']; exact hqp
        simp [replaceFD, hx, lookupFD, hqp, hxqp, ih]
      · simp [replaceFD, hx, lookupFD, ih]

theorem lookupFD_append_of_none (l1 l2 : List (String × FileData)) (p : String)
    (h : lookupFD l1 p = none) : lookupFD (l1 ++ l2) p = lookupFD l2 p := by
  induction l1 with
  | nil => simp
  | cons q rest ih =>
      by_cases hq : q.1 == p
      · simp [lookupFD, hq] at h
      · simp [lookupFD, hq] at h ⊢
        exact ih h

theorem lookupFD_append_of_some (l1 l2 : List (String × FileData)) (p : String) (d : FileData)
    (h : lookupFD l1 p = some d) : lookupFD (l1 ++ l2) p = some d := by
  induction l1 with
  | nil => simp [lookupFD] at h
  | cons q rest ih =>
      by_cases hq : q.1 == p
      · simp [lookupFD, hq] at h ⊢
        exact h
      · simp [lookupFD, hq] at h ⊢
        exact ih h

theorem lookupFD_filter_self (l : List (String × FileData)) (p : String) :
    lookupFD (l.filter (fun q => q.1 != p)) p = none := by
  induction l with
  | nil => simp [lookupFD]
  | cons q rest ih =>
      rw [List.filter_cons]
      by_cases hq : (q.1 != p) = true
      · rw [if_pos hq]
        have hq' : (q.1 == p) = false := by simpa [bne] using hq
        simp [lookupFD, hq', ih]
      · rw [if_neg hq]
        exact ih

theorem lookupFD_filter_none (l : List (String × FileData)) (pr : String × FileData → Bool)
    (p : String) (h : lookupFD l p = none) : lookupFD (l.filter pr) p = none := by
  induction l with
  | nil => simp [lookupFD]
  | cons q rest ih =>
      by_cases hq : q.1 == p
      · simp [lookupFD, hq] at h
      · by_cases hp : pr q
        · simp [List.filter, hp, lookupFD, hq]
          exact ih (by simpa [lookupFD, hq] using h)
        · simp [List.filter, hp]
          exact ih (by simpa [lookupFD, hq] using h)

/-- Writing a file makes it readable with exactly the written content. -/
theorem FS.getFile_writeFile_self (fs : FS) (p : String) (d : FileData) :
    (fs.writeFile p d).getFile p = some d := by
  unfold FS.writeFile
  by_cases h : fs.isFile p
  · have h' : (lookupFD fs.files p).isSome = true := by
      simpa [FS.isFile, FS.getFile] using h
    simp [h, FS.getFile, lookupFD_replaceFD_self fs.files p d h']
  · have h' : lookupFD fs.files p = none := by
      cases hc : lookupFD fs.files p with
      | none => rfl
      | some d0 => exact absurd (by simp [FS.isFile, FS.getFile, hc]) h
    simp [h, FS.getFile, lookupFD_append_of_none fs.files [(p, d)] p h', lookupFD]

/-- Writing one file leaves every other path unchanged. -/
theorem FS.getFile_writeFile_ne (fs : FS) (p q : String) (d : FileData) (h : q ≠ p) :
    (fs.writeFile p d).getFile q = fs.getFile q := by
  unfold FS.writeFile
  by_cases hf : fs.isFile p
  · simp [hf, FS.getFile, lookupFD_replaceFD_ne fs.files p q d h]
  · simp only [hf, if_false, FS.getFile]
    cases hc : lookupFD fs.files q with
    | none =>
        have hpq : (p == q) = false := by
          simp [show p ≠ q from fun hc' => h hc'.symm]
        simp [lookupFD_append_of_none fs.files [(p, d)] q hc, lookupFD, hpq]
    | some d0 => simp [lookupFD_append_of_some fs.files [(p, d)] q d0 hc]

/-- Removing a file makes it unreadable. -/
theorem FS.getFile_removeFile_self (fs : FS) (p : String) :
    (fs.removeFile p).getFile p = none := by
  simp [FS.removeFile, FS.getFile, lookupFD_filter_self]

/-- Removing a file cannot create a path. -/
theorem FS.pathExists_removeFile_of_not (fs : FS) (p q : String)
    (h : fs.pathExists q = false) : (fs.removeFile p).pathExists q = false := by
  simp only [FS.pathExists, FS.isFile, FS.isDir, Bool.or_eq_false_iff] at h ⊢
  obtain ⟨h1, h2⟩ := h
  refine ⟨?_, by simpa [FS.removeFile] using h2⟩
  have h1' : lookupFD fs.files q = none := by
    cases hc : lookupFD fs.files q with
    | none => rfl
    | some d0 => simp [FS.getFile, hc] at h1
  simp [FS.removeFile, FS.getFile, lookupFD_filter_none fs.files _ q h1']

/-- Writing at one path does not affect existence of another. -/
theorem FS.pathExists_writeFile_ne (fs : FS) (p q : String) (d : FileData) (h : q ≠ p) :
    (fs.writeFile p d).pathExists q = fs.pathExists q := by
  have hd : (fs.writeFile p d).dirs = fs.dirs := by
    unfold FS.writeFile
    split <;> rfl
  simp [FS.pathExists, FS.isFile, FS.isDir, FS.getFile_writeFile_ne fs p q d h, hd]

/-! Helper lemmas about the loops of the module. -/

/-- A successful `addFilesLoop` run archives exactly the supplied
entries' locations and formats, after the accumulator, in order. -/
theorem addFilesLoop_ok_locFormat (fs : FS) (wd : String) (strict : Bool)
    (entries : List Entry) :
    ∀ acc out, addFilesLoop fs wd strict entries acc = .ok out →
      out.map (fun a => (a.location, a.format)) =
        acc.map (fun a => (a.location, a.format)) ++
          entries.map (fun e => (e.location, e.format)) := by
  induction entries with
  | nil =>
      intro acc out h
      simp only [addFilesLoop, Except.ok.injEq] at h
      simp [← h]
  | cons e rest ih =>
      intro acc out h
      simp only [addFilesLoop] at h
      split at h
      · exact Except.noConfusion h
      · have := ih _ _ h
        simp only [List.map_append, List.map_cons, List.map_nil] at this
        simp [this, List.append_assoc]

/-- In strict mode, if some entry's source file is missing the loop
raises an `IOError`. -/
theorem addFilesLoop_error_of_missing (fs : FS) (wd : String) (entries : List Entry) :
    ∀ acc, (∃ e ∈ entries, fs.pathExists (pjoin wd e.location) = false) →
      ∃ msg, addFilesLoop fs wd true entries acc = .error (.ioError msg) := by
  induction entries with
  | nil =>
      intro acc h
      simp at h
  | cons e rest ih =>
      intro acc h
      by_cases hp : fs.pathExists (pjoin wd e.location) = true
      · have h' : ∃ x ∈ rest, fs.pathExists (pjoin wd x.location) = false := by
          rcases h with ⟨x, hx, hxm⟩
          rcases List.mem_cons.mp hx with hxe | hxr
          · rw [hxe] at hxm
            rw [hp] at hxm
            exact Bool.noConfusion hxm
          · exact ⟨x, hxr, hxm⟩
        obtain ⟨msg, hm⟩ := ih
          (acc ++ [{ location := e.location, format := e.format, master := e.master,
                     content := fs.contentAt (pjoin wd e.location) }]) h'
        exact ⟨msg, by simp [addFilesLoop, hp, hm]⟩
      · refine ⟨"File does not exist at given location: " ++ pjoin wd e.location, ?_⟩
        have hp' : fs.pathExists (pjoin wd e.location) = false := by
          cases hb : fs.pathExists (pjoin wd e.location) with
          | false => rfl
          | true => exact absurd hb hp
        simp [addFilesLoop, hp']

/-- The `getLocationsByFormat` accumulation loop computes the two
filtered sublists, appended to the running accumulators. -/
theorem getLocationsLoop_eq (kf : KnownFormats) (key : String) (es : List AEntry) :
    ∀ lm l, getLocationsLoop kf key es lm l =
      (lm ++ (es.filter (fun e => kf.isFormat key e.format && e.master)).map AEntry.location,
       l ++ (es.filter (fun e => kf.isFormat key e.format && !e.master)).map AEntry.location) := by
  induction es with
  | nil => intro lm l; simp [getLocationsLoop]
  | cons e rest ih =>
      intro lm l
      by_cases hf : kf.isFormat key e.format = true
      · by_cases hm : e.master = true
        · simp [getLocationsLoop, hf, hm, ih, List.append_assoc]
        · have hm' : e.master = false := by
            cases hb : e.master with
            | false => rfl
            | true => exact absurd hb hm
          simp [getLocationsLoop, hf, hm', ih, List.append_assoc]
      · have hf' : kf.isFormat key e.format = false := by
          cases hb : kf.isFormat key e.format with
          | false => rfl
          | true => exact absurd hb hf
        simp [getLocationsLoop, hf', ih]

/-- `contentRecords` produces one record per archive entry. -/
theorem contentRecords_length (kf : KnownFormats) (ees : String → Except Err String)
    (es : List AEntry) : ∀ i, (contentRecords kf ees es i).length = es.length := by
  induction es with
  | nil => intro i; simp [contentRecords]
  | cons e rest ih => intro i; simp [contentRecords, ih]

/-- `contentRecords` reports each entry's location and format verbatim. -/
theorem contentRecords_locFormat (kf : KnownFormats) (ees : String → Except Err String)
    (es : List AEntry) : ∀ i,
      (contentRecords kf ees es i).map (fun r => (r.location, r.format)) =
        es.map (fun a => (a.location, a.format)) := by
  induction es with
  | nil => intro i; simp [contentRecords]
  | cons e rest ih => intro i; simp [contentRecords, ih]

/-- Every record's content preview is the result of the protected
preview loop on its own location and format. -/
theorem contentRecords_info (kf : KnownFormats) (ees : String → Except Err String)
    (es : List AEntry) : ∀ i r, r ∈ contentRecords kf ees es i →
      r.info = tryInfo kf ees r.location r.format ["sed-ml", "sbml", "sbgn", "cellml"] none := by
  induction es with
  | nil =>
      intro i r h
      simp [contentRecords] at h
  | cons e rest ih =>
      intro i r h
      simp only [contentRecords, List.mem_cons] at h
      rcases h with h | h
      · rw [h]
      · exact ih _ _ h

/-- When extraction of a location always fails, the preview loop leaves
`info` at `None`. -/
theorem tryInfo_error (kf : KnownFormats) (ees : String → Except Err String)
    (loc fmt : String) (err : Err) (h : ees loc = .error err) :
    ∀ ks, tryInfo kf ees loc fmt ks none = none := by
  intro ks
  induction ks with
  | nil => simp [tryInfo]
  | cons k ks ih =>
      by_cases hf : kf.isFormat k fmt = true
      · simp [tryInfo, hf, h]
      · have hf' : kf.isFormat k fmt = false := by
          cases hb : kf.isFormat k fmt with
          | false => rfl
          | true => exact absurd hb hf
        simp [tryInfo, hf', ih]

/-! Claim theorems. -/

/-- C1: evaluation of the code at the failing input.  Update mode on an
existing valid archive holding `old.xml`, adding `new.xml`: the call
succeeds, but the written archive contains only `new.xml` — the archive
object initialised from the existing content is discarded when `archive`
is rebound to a fresh `CombineArchive()` before the entries are added —
even though the original archive (third conjunct) held `old.xml`. -/
theorem c1_update_mode_drops_existing_entries :
    (addEntriesToCombineArchive c1toXML "/a/ar.omex" [c1NewEntry] "/w" c1FS).1 = .ok () ∧
    (addEntriesToCombineArchive c1toXML "/a/ar.omex" [c1NewEntry] "/w" c1FS).2.1.getFile
        "/a/ar.omex" =
      some (.omexArchive [{ location := "new.xml", format := "fmtN", master := false,
                            content := "newc" }]) ∧
    c1FS.getFile "/a/ar.omex" =
      some (.omexArchive [{ location := "old.xml", format := "fmtO", master := false,
                            content := "oldc" }]) :=
  ⟨rfl, rfl, rfl⟩

/-- C5 counterexample: supplying BOTH `format` and `formatKey` also
succeeds (the explicit `format` wins), so construction does not succeed
"exactly when exactly one" of the two is supplied. -/
theorem c5_both_format_and_key_succeeds :
    Entry.init c5KF "m.xml" (some "FMT") (some "KEY") false none [] =
      .ok { location := "m.xml", format := "FMT", master := false, description := none,
            creators := [] } :=
  rfl

/-- C5 (amended): entry construction succeeds exactly when AT LEAST one
of `format` and `formatKey` is supplied; supplying neither raises the
invalid-argument (`ValueError`) error. -/
theorem c5_entry_init_succeeds_iff_some_format (kf : KnownFormats) (loc : String)
    (format formatKey : Option String) (master : Bool) (desc : Option String)
    (creators : List Creator) :
    ((∃ e, Entry.init kf loc format formatKey master desc creators = .ok e) ↔
      (format.isSome = true ∨ formatKey.isSome = true)) ∧
    (format = none → formatKey = none →
      Entry.init kf loc format formatKey master desc creators =
        .error (.valueError "Either formatKey or format must be specified for Entry.")) := by
  cases format <;> cases formatKey <;> simp [Entry.init]

/-- C5 witness: the amended theorem applied at a concrete input with
neither argument supplied. -/
theorem c5_entry_init_witness :
    Entry.init c5KF "m.xml" none none false none [] =
      .error (.valueError "Either formatKey or format must be specified for Entry.") :=
  (c5_entry_init_succeeds_iff_some_format c5KF "m.xml" none none false none []).2 rfl rfl

/-- C6 counterexample: `printArchive` on an invalid archive does not
raise an I/O error — it prints a message and returns `None` (modelled as
a successful unit result), leaving the handle unreleased. -/
theorem c6_print_invalid_archive_returns_ok :
    printArchive "/a/bad.omex" c6FS = (.ok (), c6FS, [.acquire]) :=
  rfl

/-- C6 (amended): on an invalid (unparseable) archive, omex-method
extraction, omex-method format lookup and listing raise `IOError`;
zip-method extraction and zip-method lookup raise `BadZipFile` (not an
I/O error in Python); printing reports the problem and returns without
raising. -/
theorem c6_invalid_archive_error_behaviour (kf : KnownFormats)
    (ees : String → Except Err String) (omexPath directory key tmpDir : String)
    (fs : FS) (s : String) (h : fs.getFile omexPath = some (.text s)) (hk : key ≠ "") :
    (extractCombineArchive omexPath directory "omex" fs).1 =
      .error (.ioError "Invalid Combine Archive") ∧
    (extractCombineArchive omexPath directory "zip" fs).1 = .error .badZipFile ∧
    (getLocationsByFormat kf omexPath key "omex" tmpDir fs).1 =
      .error (.ioError "Invalid Combine Archive") ∧
    (getLocationsByFormat kf omexPath key "zip" tmpDir fs).1 = .error .badZipFile ∧
    (listContents kf ees omexPath "omex" fs).1 =
      .error (.ioError "Invalid Combine Archive") ∧
    (printArchive omexPath fs).1 = .ok () := by
  have hk' : (key == "") = false := by
    cases hb : key == "" with
    | false => rfl
    | true => exact absurd (by simpa using hb) hk
  refine ⟨?_, ?_, ?_, ?_, ?_, ?_⟩ <;>
    simp [extractCombineArchive, getLocationsByFormat, listContents, printArchive, h, hk']

/-- C6 witness: the amended theorem applied to the concrete invalid
archive `/a/bad.omex`. -/
theorem c6_invalid_archive_error_behaviour_witness :
    (extractCombineArchive "/a/bad.omex" "/out" "omex" c6FS).1 =
      .error (.ioError "Invalid Combine Archive") ∧
    (extractCombineArchive "/a/bad.omex" "/out" "zip" c6FS).1 = .error .badZipFile ∧
    (getLocationsByFormat c6KF "/a/bad.omex" "k" "omex" "/tmp1" c6FS).1 =
      .error (.ioError "Invalid Combine Archive") ∧
    (getLocationsByFormat c6KF "/a/bad.omex" "k" "zip" "/tmp1" c6FS).1 = .error .badZipFile ∧
    (listContents c6KF c6EES "/a/bad.omex" "omex" c6FS).1 =
      .error (.ioError "Invalid Combine Archive") ∧
    (printArchive "/a/bad.omex" c6FS).1 = .ok () :=
  c6_invalid_archive_error_behaviour c6KF c6EES "/a/bad.omex" "/out" "k" "/tmp1" c6FS
    "not a zip" rfl (by decide)

/-- C7: when the working directory does not exist, each of the three
archive-build operations raises the I/O error and the filesystem is
returned unchanged — in particular no archive, and not even the metadata
file, has been written (the empty event trace also shows no native
handle was touched). -/
theorem c7_missing_working_directory (kf : KnownFormats) (toXML : Entry → List String)
    (omexPath workingDir : String) (entries : List Entry) (creators : List Creator)
    (fs : FS) (h : fs.pathExists workingDir = false) :
    combineArchiveFromEntries toXML omexPath entries workingDir fs =
      (.error (.ioError ("Working directory does not exist: " ++ workingDir)), fs, []) ∧
    addEntriesToCombineArchive toXML omexPath entries workingDir fs =
      (.error (.ioError ("Working directory does not exist: " ++ workingDir)), fs, []) ∧
    combineArchiveFromDirectory kf toXML workingDir omexPath creators fs =
      (.error (.ioError ("Working directory does not exist: " ++ workingDir)), fs, []) := by
  refine ⟨?_, ?_, ?_⟩ <;>
    simp [combineArchiveFromEntries, addEntriesToCombineArchive, combineArchiveFromDirectory,
      addEntriesToArchiveImpl, h]

/-- C7 witness: the theorem applied to the empty filesystem, where the
working directory `/w` does not exist. -/
theorem c7_missing_working_directory_witness :
    combineArchiveFromEntries c7toXML "/a/x.omex" [] "/w" c7FS =
      (.error (.ioError ("Working directory does not exist: " ++ "/w")), c7FS, []) ∧
    addEntriesToCombineArchive c7toXML "/a/x.omex" [] "/w" c7FS =
      (.error (.ioError ("Working directory does not exist: " ++ "/w")), c7FS, []) ∧
    combineArchiveFromDirectory c7KF c7toXML "/w" "/a/x.omex" [] c7FS =
      (.error (.ioError ("Working directory does not exist: " ++ "/w")), c7FS, []) :=
  c7_missing_working_directory c7KF c7toXML "/a/x.omex" "/w" [] [] c7FS rfl

/-- C2: the entry list built by the directory scan starts with the base
`"."` entry with `master = False`; every scanned entry's master flag
equals the `"sed-ml"` format test applied to the format guessed from its
file; and every scanned non-manifest file yields such an entry. -/
theorem c2_directory_scan_master_iff (kf : KnownFormats) (directory : String)
    (creators : List Creator) (fs : FS) :
    (directoryEntries kf directory creators fs).head? =
      some { location := ".", format := "http://identifiers.org/combine.specifications/omex",
             master := false, description := none, creators := [] } ∧
    (∀ e ∈ (directoryEntries kf directory creators fs).tail,
        e.master =
          kf.isFormat "sed-ml" (kf.guessFormat (fs.contentAt (pjoin directory e.location)))) ∧
    (∀ loc ∈ fs.filesUnder directory, loc ≠ MANIFEST_PATTERN →
        ∃ e ∈ (directoryEntries kf directory creators fs).tail, e.location = loc ∧
          e.master =
            kf.isFormat "sed-ml" (kf.guessFormat (fs.contentAt (pjoin directory loc)))) := by
  refine ⟨rfl, ?_, ?_⟩
  · intro e he
    simp only [directoryEntries, List.tail_cons] at he
    obtain ⟨loc, _, hf⟩ := List.mem_filterMap.mp he
    by_cases hm : loc == MANIFEST_PATTERN
    · simp [hm] at hf
    · simp only [hm, Bool.false_eq_true, if_false, Option.some.injEq] at hf
      rw [← hf]
  · intro loc hmem hne
    refine ⟨{ location := loc,
              format := kf.guessFormat (fs.contentAt (pjoin directory loc)),
              master := kf.isFormat "sed-ml" (kf.guessFormat (fs.contentAt (pjoin directory loc))),
              description := none, creators := creators }, ?_, rfl, rfl⟩
    simp only [directoryEntries, List.tail_cons]
    refine List.mem_filterMap.mpr ⟨loc, hmem, ?_⟩
    have hne' : (loc == MANIFEST_PATTERN) = false := by
      cases hb : loc == MANIFEST_PATTERN with
      | false => rfl
      | true => exact absurd (by simpa using hb) hne
    simp [hne']

/-- C2 witness: applied to a concrete directory `/d` holding a SED-ML
file `sim.sedml`, the scan yields an entry for it whose master flag is
the SED-ML format test of its guessed format (which evaluates to
`true`). -/
theorem c2_directory_scan_master_iff_witness :
    "sim.sedml" ∈ c2FS.filesUnder "/d" ∧ "sim.sedml" ≠ MANIFEST_PATTERN ∧
    (∃ e ∈ (directoryEntries c2KF "/d" [] c2FS).tail, e.location = "sim.sedml" ∧
        e.master =
          c2KF.isFormat "sed-ml" (c2KF.guessFormat (c2FS.contentAt (pjoin "/d" "sim.sedml")))) ∧
    c2KF.isFormat "sed-ml" (c2KF.guessFormat (c2FS.contentAt (pjoin "/d" "sim.sedml"))) = true :=
  ⟨by decide, by decide,
   (c2_directory_scan_master_iff c2KF "/d" [] c2FS).2.2 "sim.sedml" (by decide) (by decide),
   rfl⟩

/-- C4 counterexample: with the `"zip"` method the master flags recorded
in the archive are ignored — on an archive whose matching non-master
entry `a.xml` precedes its matching master entry `b.xml`, the result is
`["a.xml", "b.xml"]`, which is not the master-first arrangement. -/
theorem c4_zip_method_ignores_master :
    (getLocationsByFormat c4KF "/a/ar.omex" "K" "zip" "/tmp1" c4FS).1 =
      .ok ["a.xml", "b.xml"] ∧
    ¬ mastersFirst c4KF "K" c4Entries ["a.xml", "b.xml"] :=
  ⟨rfl, by unfold mastersFirst; decide⟩

/-- C4 (amended): with the `"omex"` method, `getLocationsByFormat`
returns exactly the matching member locations, every master-flagged one
before every non-master one, preserving relative order within each
group; the `"zip"` method ignores master flags and returns
guessed-format matches in directory-walk order. -/
theorem c4_omex_masters_first (kf : KnownFormats) (omexPath key tmpDir : String) (fs : FS)
    (es : List AEntry) (hk : key ≠ "") (h : fs.getFile omexPath = some (.omexArchive es)) :
    ∃ locs, (getLocationsByFormat kf omexPath key "omex" tmpDir fs).1 = .ok locs ∧
      mastersFirst kf key es locs := by
  have hk' : (key == "") = false := by
    cases hb : key == "" with
    | false => rfl
    | true => exact absurd (by simpa using hb) hk
  refine ⟨_, ?_, rfl⟩
  simp [getLocationsByFormat, hk', h, getLocationsLoop_eq, mastersFirst]

/-- C4 witness: the amended theorem applied to the concrete archive,
where the omex method does return the master location first. -/
theorem c4_omex_masters_first_witness :
    ∃ locs, (getLocationsByFormat c4KF "/a/ar.omex" "K" "omex" "/tmp1" c4FS).1 = .ok locs ∧
      mastersFirst c4KF "K" c4Entries locs :=
  c4_omex_masters_first c4KF "/a/ar.omex" "K" "/tmp1" c4FS c4Entries (by decide) rfl

/-- C9: listing a valid archive always yields one record per entry, and
a record whose location fails to extract keeps an empty (`None`) content
field — the failure is caught and never propagates. -/
theorem c9_listing_tolerates_extraction_failures (kf : KnownFormats)
    (ees : String → Except Err String) (omexPath : String) (fs : FS) (es : List AEntry)
    (h : fs.getFile omexPath = some (.omexArchive es)) :
    ∃ recs, (listContents kf ees omexPath "omex" fs).1 = .ok recs ∧
      recs.length = es.length ∧
      ∀ r ∈ recs, (∃ err, ees r.location = .error err) → r.info = none := by
  refine ⟨contentRecords kf ees es 0, ?_, contentRecords_length kf ees es 0, ?_⟩
  · simp [listContents, h]
  · intro r hr herr
    obtain ⟨err, herr⟩ := herr
    rw [contentRecords_info kf ees es 0 r hr,
      tryInfo_error kf ees r.location r.format err herr]

/-- C9 witness: the theorem applied to a concrete archive whose single
SED-ML entry fails to extract — the listing still succeeds with one
record and an empty content field. -/
theorem c9_listing_tolerates_extraction_failures_witness :
    ∃ recs, (listContents c9KF c9EES "/a/ar.omex" "omex" c9FS).1 = .ok recs ∧
      recs.length = 1 ∧
      ∀ r ∈ recs, (∃ err, c9EES r.location = .error err) → r.info = none := by
  have := c9_listing_tolerates_extraction_failures c9KF c9EES "/a/ar.omex" c9FS
    [{ location := "s.sedml", format := "SF", master := true, content := "SC" }] rfl
  simpa using this

/-- C3: after a successful `combineArchiveFromEntries` build, listing
the written archive returns exactly one record per supplied entry, with
the supplied locations and formats in the supplied order (hence as equal
sets). -/
theorem c3_build_then_list_roundtrip (toXML : Entry → List String) (kf : KnownFormats)
    (ees : String → Except Err String) (omexPath workingDir : String)
    (entries : List Entry) (fs fs' : FS) (ev : List Ev)
    (h : combineArchiveFromEntries toXML omexPath entries workingDir fs = (.ok (), fs', ev)) :
    ∃ recs, (listContents kf ees omexPath "omex" fs').1 = .ok recs ∧
      recs.map (fun r => (r.location, r.format)) =
        entries.map (fun e => (e.location, e.format)) := by
  unfold combineArchiveFromEntries addEntriesToArchiveImpl at h
  cases h1 : fs.pathExists workingDir with
  | false => simp [h1] at h
  | true =>
    simp only [h1, Bool.not_true, Bool.false_eq_true, if_false, Bool.not_false,
      Bool.true_and, Bool.false_and, Bool.and_false, if_true] at h
    split at h
    next heq => simp at h
    next aentries heq =>
      simp only [Prod.mk.injEq] at h
      obtain ⟨-, hfs, -⟩ := h
      refine ⟨contentRecords kf ees aentries 0, ?_, ?_⟩
      · rw [← hfs]
        simp [listContents, FS.getFile_writeFile_self]
      · have hloop := addFilesLoop_ok_locFormat _ workingDir true entries [] aentries heq
        simp only [List.map_nil, List.nil_append] at hloop
        rw [contentRecords_locFormat, hloop]

/-- C3 witness: the theorem applied to a concrete successful build of
`/a/out.omex` from two entries out of `/w`. -/
theorem c3_build_then_list_roundtrip_witness :
    ∃ recs, (listContents c3KF c3EES "/a/out.omex" "omex" c3FSAfter).1 = .ok recs ∧
      recs.map (fun r => (r.location, r.format)) =
        c3Entries.map (fun e => (e.location, e.format)) :=
  c3_build_then_list_roundtrip c3toXML c3KF c3EES "/a/out.omex" "/w" c3Entries c3FS
    c3FSAfter c3EvAfter rfl

/-- C8 counterexample: `listContents` on an invalid archive acquires the
native handle (the `CombineArchive()` construction) and raises without
ever releasing it — the event trace contains the acquisition and no
release, so release is not guaranteed on every exit path. -/
theorem c8_error_path_leaks_handle :
    (listContents c8KF c8EES "/a/bad.omex" "omex" c8FS).2.2 = [Ev.acquire] ∧
    Ev.release ∉ [Ev.acquire] :=
  ⟨rfl, by decide⟩

/-- C8 (amended): on their successful paths, omex-method extraction,
omex-method lookup, listing, and printing of a valid archive each
release their handle before returning; error paths raise or return with
the handle unreleased, and `_addEntriesToArchive` acquires two handles
but releases only the second even on success. -/
theorem c8_release_behaviour (kf : KnownFormats) (ees : String → Except Err String)
    (toXML : Entry → List String)
    (omexPath directory key tmpDir workingDir fileName : String)
    (entries : List Entry) (add_entries strict : Bool) (fs : FS) :
    (∀ r fs' ev, extractCombineArchive omexPath directory "omex" fs = (.ok r, fs', ev) →
        ev = [.acquire, .release]) ∧
    (∀ r fs' ev, getLocationsByFormat kf omexPath key "omex" tmpDir fs = (.ok r, fs', ev) →
        ev = [.acquire, .release]) ∧
    (∀ r fs' ev, listContents kf ees omexPath "omex" fs = (.ok r, fs', ev) →
        ev = [.acquire, .release]) ∧
    (isValidOmexAt fs fileName = true →
        (printArchive fileName fs).2.2 = [.acquire, .release]) ∧
    (∀ r fs' ev,
        addEntriesToArchiveImpl toXML omexPath entries workingDir add_entries strict fs =
          (.ok r, fs', ev) → ev = [.acquire, .acquire, .release]) := by
  refine ⟨?_, ?_, ?_, ?_, ?_⟩
  · intro r fs' ev h
    cases hg : fs.getFile omexPath with
    | none => simp [extractCombineArchive, hg] at h
    | some fd =>
      cases fd with
      | text s => simp [extractCombineArchive, hg] at h
      | omexArchive es =>
          have h2 := congrArg (fun t => t.2.2) h
          simp [extractCombineArchive, hg] at h2
          exact h2.symm
  · intro r fs' ev h
    cases hkey : key == "" with
    | true => simp [getLocationsByFormat, hkey] at h
    | false =>
      cases hg : fs.getFile omexPath with
      | none => simp [getLocationsByFormat, hkey, hg] at h
      | some fd =>
        cases fd with
        | text s => simp [getLocationsByFormat, hkey, hg] at h
        | omexArchive es =>
            have h2 := congrArg (fun t => t.2.2) h
            simp [getLocationsByFormat, hkey, hg] at h2
            exact h2.symm
  · intro r fs' ev h
    cases hg : fs.getFile omexPath with
    | none => simp [listContents, hg] at h
    | some fd =>
      cases fd with
      | text s => simp [listContents, hg] at h
      | omexArchive es =>
          have h2 := congrArg (fun t => t.2.2) h
          simp [listContents, hg] at h2
          exact h2.symm
  · intro hv
    cases hg : fs.getFile fileName with
    | none => simp [isValidOmexAt, hg] at hv
    | some fd =>
      cases fd with
      | text s => simp [isValidOmexAt, hg] at hv
      | omexArchive es => simp [printArchive, hg]
  · intro r fs' ev h
    unfold addEntriesToArchiveImpl at h
    cases hwd : fs.pathExists workingDir with
    | false => simp [hwd] at h
    | true =>
      simp only [hwd, Bool.not_true, Bool.false_eq_true, if_false] at h
      cases hc : (add_entries && (if (!add_entries && fs.pathExists omexPath) = true then
          fs.removeFile omexPath else fs).pathExists omexPath &&
          !isValidOmexAt (if (!add_entries && fs.pathExists omexPath) = true then
            fs.removeFile omexPath else fs) omexPath) with
      | true => simp only [hc, if_true] at h; simp at h
      | false =>
        simp only [hc, Bool.false_eq_true, if_false] at h
        cases hl : addFilesLoop
            ((if (!add_entries && fs.pathExists omexPath) = true then
              fs.removeFile omexPath else fs).writeFile (pjoin workingDir "metadata.rdf")
              (.text (metadataStr toXML entries))) workingDir strict entries [] with
        | error er => rw [hl] at h; simp at h
        | ok aentries =>
            rw [hl] at h
            simp only [Prod.mk.injEq] at h
            exact h.2.2.symm

/-- C8 witness: the amended theorem's printing clause applied to a
concrete valid archive. -/
theorem c8_release_behaviour_witness :
    isValidOmexAt c8VFS "/a/ok.omex" = true ∧
    (printArchive "/a/ok.omex" c8VFS).2.2 = [Ev.acquire, Ev.release] :=
  ⟨rfl, (c8_release_behaviour c8KF c8EES c8toXML "/a/ok.omex" "/out" "k" "/tmp1" "/w"
      "/a/ok.omex" [] false false c8VFS).2.2.2.1 rfl⟩

/-- C10: in strict fresh-create mode with a missing source file, the
build raises `IOError`, yet in the returned state the combined metadata
document has already been written to `metadata.rdf` in the working
directory and the pre-existing target archive has already been deleted —
the side effects persist although no archive was written. -/
theorem c10_metadata_written_before_missing_file_error
    (toXML : Entry → List String) (omexPath workingDir : String)
    (entries : List Entry) (e : Entry) (fs : FS)
    (hw : fs.pathExists workingDir = true)
    (ho : fs.pathExists omexPath = true)
    (he : e ∈ entries)
    (hm : fs.pathExists (pjoin workingDir e.location) = false)
    (hne : pjoin workingDir e.location ≠ pjoin workingDir "metadata.rdf")
    (hno : omexPath ≠ pjoin workingDir "metadata.rdf") :
    ∃ msg fs' ev, combineArchiveFromEntries toXML omexPath entries workingDir fs =
        (.error (.ioError msg), fs', ev) ∧
      fs'.getFile (pjoin workingDir "metadata.rdf") =
        some (.text (metadataStr toXML entries)) ∧
      fs'.getFile omexPath = none := by
  have hm1 : (fs.removeFile omexPath).pathExists (pjoin workingDir e.location) = false :=
    FS.pathExists_removeFile_of_not fs omexPath _ hm
  have hm2 : ((fs.removeFile omexPath).writeFile (pjoin workingDir "metadata.rdf")
      (.text (metadataStr toXML entries))).pathExists (pjoin workingDir e.location) = false := by
    rw [FS.pathExists_writeFile_ne _ _ _ _ hne]
    exact hm1
  obtain ⟨msg, hloop⟩ := addFilesLoop_error_of_missing
    ((fs.removeFile omexPath).writeFile (pjoin workingDir "metadata.rdf")
      (.text (metadataStr toXML entries))) workingDir entries [] ⟨e, he, hm2⟩
  refine ⟨msg,
    (fs.removeFile omexPath).writeFile (pjoin workingDir "metadata.rdf")
      (.text (metadataStr toXML entries)),
    [Ev.acquire, Ev.acquire], ?_, ?_, ?_⟩
  · simp [combineArchiveFromEntries, addEntriesToArchiveImpl, hw, ho, hloop]
  · exact FS.getFile_writeFile_self _ _ _
  · rw [FS.getFile_writeFile_ne _ _ _ _ hno]
    exact FS.getFile_removeFile_self fs omexPath

/-- C10 witness: the theorem applied to a concrete state with a
pre-existing `/a/old.omex`, an existing `/w`, and a single entry whose
file `/w/gone.xml` is missing. -/
theorem c10_metadata_written_before_missing_file_error_witness :
    ∃ msg fs' ev, combineArchiveFromEntries c10toXML "/a/old.omex" [c10Entry] "/w" c10FS =
        (.error (.ioError msg), fs', ev) ∧
      fs'.getFile (pjoin "/w" "metadata.rdf") =
        some (.text (metadataStr c10toXML [c10Entry])) ∧
      fs'.getFile "/a/old.omex" = none :=
  c10_metadata_written_before_missing_file_error c10toXML "/a/old.omex" "/w" [c10Entry]
    c10Entry c10FS rfl rfl (by decide) rfl (by decide) (by decide)

end Tellurium
